import Mathlib

/-!
Verification of the git workflow engine in `packages/utils/lib/Git/Git.js`
(imooc-cli).  Pure string processing (branch naming, remote-ref scanning,
semver validation) is embedded as Lean functions; the stateful workflow
methods are embedded as explicit state-passing functions over a record of
pending collaborator results (statuses, pull/push outcomes, prompt
responses) that also accumulates an event trace of the git operations
performed.
-/

namespace ImoocGit

/-- Constants from the top of Git.js. -/
def VERSION_RELEASE : String := "release"

/-- Default release channel (`VERSION_DEVELOP` in Git.js). -/
def VERSION_DEVELOP : String := "dev"

/-- Platform identifier constant `GITHUB`. -/
def GITHUB : String := "github"

/-- Platform identifier constant `GITEE`. -/
def GITEE : String := "gitee"

/-- Owner-kind constant `REPO_OWNER_USER`. -/
def REPO_OWNER_USER : String := "user"

/-- Owner-kind constant `REPO_OWNER_ORG`. -/
def REPO_OWNER_ORG : String := "org"

/-- Does `pre` start `l`?  Used to model JavaScript substring search. -/
def startsL : List Char → List Char → Bool
  | [], _ => true
  | _ :: _, [] => false
  | a :: as, b :: bs => a == b && startsL as bs

/-- Does `sub` occur contiguously inside `l`?  Models `s.indexOf(sub) >= 0`
on JavaScript strings. -/
def containsSub (sub : List Char) : List Char → Bool
  | [] => sub.isEmpty
  | c :: rest => startsL sub (c :: rest) || containsSub sub rest

/-- JavaScript substring test on `String`: `s.indexOf(sub) >= 0`. -/
def jsIncludes (s sub : String) : Bool := containsSub sub.toList s.toList

/-- JavaScript `t || d` on an optional string: `undefined`/`null`/empty are
falsy and give the default. -/
def jsOrDefault (t : Option String) (d : String) : String :=
  match t with
  | none => d
  | some s => if s = "" then d else s

/-- Result record of `git.status()` as consumed by Git.js: the six path
lists the workflow inspects. -/
structure GitStatus where
  conflicted : List String
  not_added : List String
  created : List String
  deleted : List String
  modified : List String
  renamed : List String
deriving DecidableEq

/-- A status with every list empty (clean working tree). -/
def cleanStatus : GitStatus := ⟨[], [], [], [], [], []⟩

/-- Error message thrown by `checkConflicted` in Git.js. -/
def conflictMsg : String := "当前代码存在冲突，请手动处理合并后再试！"

/-- Pure core of `checkConflicted`: throws when `status.conflicted.length > 0`. -/
def checkConflictedPure (st : GitStatus) : Except String Unit :=
  if st.conflicted.length > 0 then Except.error conflictMsg else Except.ok ()

/-- The guard of `checkNotCommitted`: some of the five staged-path lists is
non-empty (`.length > 0` checks in Git.js). -/
def dirtyB (st : GitStatus) : Bool :=
  decide (st.not_added.length > 0) || decide (st.created.length > 0) ||
  decide (st.deleted.length > 0) || decide (st.modified.length > 0) ||
  decide (st.renamed.length > 0)

/-- The `while (!message)` prompt loop of `checkNotCommitted`, over a finite
stream of responses: returns the first non-empty response, the remaining
stream and the number of prompts issued; `none` models the loop running
forever because every remaining response is empty. -/
def askLoop : List String → Option (String × List String × Nat)
  | [] => none
  | p :: ps =>
      if p = "" then
        match askLoop ps with
        | none => none
        | some (m, rest, n) => some (m, rest, n + 1)
      else some (p, ps, 1)

/-- Numeric value of a digit string. -/
def digitsVal (l : List Char) : Nat :=
  l.foldl (fun n c => n * 10 + (c.toNat - 48)) 0

/-- One numeric identifier of a strict semver (`0|[1-9]\d*`, bounded by
`Number.MAX_SAFE_INTEGER`). -/
def numericIdOk (l : List Char) : Bool :=
  !l.isEmpty && l.all Char.isDigit && (l == ['0'] || l.headD '0' != '0') &&
  decide (digitsVal l ≤ 9007199254740991)

/-- JavaScript `s.split('\n')` on the character list of a string: empty
string gives one empty piece, a trailing separator a trailing empty piece. -/
def splitNl : List Char → List (List Char)
  | [] => [[]]
  | c :: rest =>
      if c = '\n' then [] :: splitNl rest
      else
        match splitNl rest with
        | l :: ls => (c :: l) :: ls
        | [] => [[c]]

/-- JavaScript `s.split('.')` on the character list of a string. -/
def splitDot : List Char → List (List Char)
  | [] => [[]]
  | c :: rest =>
      if c = '.' then [] :: splitDot rest
      else
        match splitDot rest with
        | l :: ls => (c :: l) :: ls
        | [] => [[c]]

/-- Models `semver.valid` of the npm `semver` package on the
`MAJOR.MINOR.PATCH` shaped inputs this program feeds it (regex captures of
`\d+\.\d+\.\d+` and the literal examples of the spec): valid iff three
dot-separated numeric identifiers without leading zeros, within
`MAX_SAFE_INTEGER`, total length at most 256. -/
def semverValid (s : String) : Bool :=
  decide (s.length ≤ 256) &&
  match splitDot s.toList with
  | [a, b, c] => numericIdOk a && numericIdOk b && numericIdOk c
  | _ => false

/-- Greedy `\d+` at the head of a character list: digits taken and rest. -/
def takeDigits : List Char → List Char × List Char
  | [] => ([], [])
  | c :: rest =>
      if c.isDigit then
        let (d, r) := takeDigits rest
        (c :: d, r)
      else ([], c :: rest)

/-- Match `\d+\.\d+\.\d+` at the head of a list: the capture and the rest.
Greedy `\d+` needs no backtracking here because a shortened digit run is
followed by a digit, never by the required dot. -/
def matchTriple (l : List Char) : Option (List Char × List Char) :=
  match takeDigits l with
  | ([], _) => none
  | (d1, r1) =>
    match r1 with
    | '.' :: r2 =>
      match takeDigits r2 with
      | ([], _) => none
      | (d2, r3) =>
        match r3 with
        | '.' :: r4 =>
          match takeDigits r4 with
          | ([], _) => none
          | (d3, _r5) => some (d1 ++ '.' :: d2 ++ '.' :: d3, _r5)
        | _ => none
    | _ => none

/-- Drop the literal `pre` from the head of `l`, if present. -/
def dropPfx : List Char → List Char → Option (List Char)
  | [], l => some l
  | _ :: _, [] => none
  | a :: as, b :: bs => if a = b then dropPfx as bs else none

/-- Match the regex core `lit(\d+\.\d+\.\d+)` at the head of `l`, returning
the capture. -/
def coreMatch (lit l : List Char) : Option (List Char) :=
  match dropPfx lit l with
  | none => none
  | some rest =>
    match matchTriple rest with
    | none => none
    | some (cap, _) => some cap

/-- Leftmost occurrence of the regex core in a suffix starting at absolute
position `pos`: returns the capture and the absolute end position of the
whole core match. -/
def searchCore (lit : List Char) : List Char → Nat → Option (List Char × Nat)
  | [], _ => none
  | c :: rest, pos =>
      match coreMatch lit (c :: rest) with
      | some cap => some (cap, pos + lit.length + cap.length)
      | none => searchCore lit rest (pos + 1)

/-- One `reg.exec(line)` step for the stateful global regex
`/.+?lit(\d+\.\d+\.\d+)/g` of `getRemoteBranchList`: starting from
`lastIndex`, the lazy `.+?` (at least one character) puts the core at the
earliest position `q ≥ lastIndex + 1` where it matches in full; on success
the capture and the new `lastIndex` (match end) are returned, on failure
`none` (JavaScript then resets `lastIndex` to 0). -/
def regExec (lit : List Char) (lastIndex : Nat) (line : List Char) :
    Option (List Char × Nat) :=
  searchCore lit (line.drop (lastIndex + 1)) (lastIndex + 1)

/-- Core literal of the dev-channel pattern `/.+?refs\/heads\/dev\/(\d+\.\d+\.\d+)/g`. -/
def devCore : List Char := "refs/heads/dev/".toList

/-- Core literal of the release-channel pattern `/.+?refs\/tags\/release\/(\d+\.\d+\.\d+)/g`. -/
def relCore : List Char := "refs/tags/release/".toList

/-- The `remoteList.split('\n').map(...).filter(_ => _)` pipeline of
`getRemoteBranchList`, with the regex's `lastIndex` threaded across lines
exactly as the single `/g` regex object does in the source: a successful
exec on one line leaves `lastIndex` at the match end for the next line, a
failed exec resets it to 0.  A captured version is kept only when
`semver.valid` accepts it. -/
def scanLines (lit : List Char) : List (List Char) → Nat → List String
  | [], _ => []
  | line :: rest, li =>
      match regExec lit li line with
      | some (cap, e) =>
          let v := String.mk cap
          if semverValid v then v :: scanLines lit rest e
          else scanLines lit rest e
      | none => scanLines lit rest 0

/-- `getRemoteBranchList(type)` of Git.js as a function of the
`git ls-remote --refs` output string: choose the channel pattern
(`type === VERSION_RELEASE` picks the release-tags core, anything else the
dev-heads core), split on newlines and scan with the shared stateful regex. -/
def getRemoteBranchList (vtype : Option String) (remoteList : String) :
    List String :=
  let lit := if vtype == some VERSION_RELEASE then relCore else devCore
  scanLines lit (splitNl remoteList.toList) 0

/-- The branch name assigned by `getCorrectVersion`:
`` `${type || VERSION_DEVELOP}/${this.version}` `` — no validation of the
version is performed. -/
def correctBranch (vtype : Option String) (version : String) : String :=
  jsOrDefault vtype VERSION_DEVELOP ++ "/" ++ version

/-- Outcome of an awaited `git.pull` / `git.push` call: success, or a
rejection carrying the error message. -/
inductive PullRes
  | ok
  | err (msg : String)
deriving DecidableEq

/-- How an embedded workflow step ends abnormally: a thrown `Error`, a
`process.exit(code)`, or the commit-message prompt loop never receiving a
non-empty answer (`hang` marks that non-termination). -/
inductive Abort
  | thrown (msg : String)
  | exited (code : Nat)
  | hang
deriving DecidableEq

/-- Observable actions of the workflow: the git operations it issues, the
prompts of the commit-message loop, and the two classification log calls of
`pullRemoteRepo`. -/
inductive Ev
  | lsRemote
  | statusCall
  | stashPop
  | addPaths (ps : List String)
  | promptEv
  | commitEv (msg : String)
  | checkoutEv (b : String)
  | checkoutLocalEv (b : String)
  | pullEv (b : String) (allowUnrelated : Bool)
  | pushEv (b : String)
  | noticeEv (msg : String)
  | errorEv (msg : String)
deriving DecidableEq

/-- Workflow state: the `this.version` / `this.branch` fields of the `Git`
object, the pending results of each awaited collaborator (consumed in call
order, one list per collaborator; an exhausted list yields a benign
default, theorems always supply enough entries), and the trace of events
issued so far. -/
structure S where
  version : String
  branch : Option String
  statuses : List GitStatus
  stashAll : List String
  localBranches : List String
  remoteRefs : String
  prompts : List String
  pulls : List PullRes
  pushes : List PullRes
  events : List Ev
deriving DecidableEq

/-- Append one event to the trace. -/
def emit (e : Ev) (s : S) : S := { s with events := s.events ++ [e] }

/-- Sequencing of `await`ed steps: a thrown error or exit stops the chain. -/
def andThen (r : Except Abort Unit × S) (f : S → Except Abort Unit × S) :
    Except Abort Unit × S :=
  match r with
  | (Except.error a, s) => (Except.error a, s)
  | (Except.ok _, s) => f s

/-- One `this.git.status()` call: consumes the next pending status. -/
def statusOp (s : S) : GitStatus × S :=
  (s.statuses.headD cleanStatus,
   { s with
       statuses := s.statuses.tail
       events := s.events ++ [Ev.statusCall] })

/-- `checkConflicted` of Git.js: status, then throw iff some path is
conflicted. -/
def checkConflictedOp (s : S) : Except Abort Unit × S :=
  let (st, s1) := statusOp s
  match checkConflictedPure st with
  | Except.ok _ => (Except.ok (), s1)
  | Except.error m => (Except.error (Abort.thrown m), s1)

/-- `checkNotCommitted` of Git.js: status; if any of the five lists is
non-empty, `git.add` each of the five lists, prompt until the message is
non-empty, then `git.commit` once; otherwise do nothing. -/
def checkNotCommittedOp (s : S) : Except Abort Unit × S :=
  let (st, s1) := statusOp s
  if dirtyB st then
    let s2 := { s1 with events := s1.events ++
      [Ev.addPaths st.not_added, Ev.addPaths st.created, Ev.addPaths st.deleted,
       Ev.addPaths st.modified, Ev.addPaths st.renamed] }
    match askLoop s2.prompts with
    | none =>
        (Except.error Abort.hang,
         { s2 with
             prompts := []
             events := s2.events ++ List.replicate s2.prompts.length Ev.promptEv })
    | some (m, rest, n) =>
        (Except.ok (),
         { s2 with
             prompts := rest
             events := s2.events ++ List.replicate n Ev.promptEv ++ [Ev.commitEv m] })
  else (Except.ok (), s1)

/-- Signature matched first by `pullRemoteRepo`'s failure handler. -/
def sshSig : String := "Permission denied (publickey)"

/-- An apostrophe character, for building the missing-ref signature. -/
def apos : String := String.singleton (Char.ofNat 39)

/-- The second signature: `"Couldn't find remote ref " + branchName`. -/
def missingRefSig (b : String) : String :=
  "Couldn" ++ apos ++ "t find remote ref " ++ b

/-- Message of the error thrown on the public-key signature (the two
platform help URLs interpolated by Git.js are elided; the gitServer object
is an external collaborator). -/
def sshErrMsg : String := "请获取本地 ssh publickey 并配置到平台的 SSH Keys 设置页"

/-- `pullRemoteRepo(branchName, options)` of Git.js: issue the pull; on
rejection classify the message — the public-key signature throws the
SSH-setup error, the missing-remote-ref signature logs a notice, anything
else logs the message as an error, and both of the latter two fall through
to `process.exit(0)` (the exit call sits after the whole `if`/`else`
chain). -/
def pullRemoteRepoOp (b : String) (allowUnrelated : Bool) (s : S) :
    Except Abort Unit × S :=
  let res := s.pulls.headD PullRes.ok
  let s1 := { s with
                pulls := s.pulls.tail
                events := s.events ++ [Ev.pullEv b allowUnrelated] }
  match res with
  | PullRes.ok => (Except.ok (), s1)
  | PullRes.err m =>
      if jsIncludes m sshSig then
        (Except.error (Abort.thrown sshErrMsg), s1)
      else if jsIncludes m (missingRefSig b) then
        (Except.error (Abort.exited 0),
         emit (Ev.noticeEv ("获取远程 " ++ b ++ " 分支失败")) s1)
      else
        (Except.error (Abort.exited 0), emit (Ev.errorEv m) s1)

/-- `pushRemoteRepo(branchName)` of Git.js: push to origin; a rejection
propagates unclassified. -/
def pushRemoteRepoOp (b : String) (s : S) : Except Abort Unit × S :=
  let res := s.pushes.headD PullRes.ok
  let s1 := { s with
                pushes := s.pushes.tail
                events := s.events ++ [Ev.pushEv b] }
  match res with
  | PullRes.ok => (Except.ok (), s1)
  | PullRes.err m => (Except.error (Abort.thrown m), s1)

/-- Reference string looked for by `checkRemoteMaster`. -/
def masterRef : String := "refs/heads/master"

/-- `checkRemoteMaster` of Git.js:
`listRemote(['--refs']).indexOf('refs/heads/master') >= 0`. -/
def checkRemoteMasterOp (s : S) : Bool × S :=
  (jsIncludes s.remoteRefs masterRef, emit Ev.lsRemote s)

/-- `initCommit` of Git.js: conflict check, pending-change commit, then —
depending on whether the remote already has a `master` branch — either
pull `master` with `--allow-unrelated-histories` or push `master`
(`if`/`else`: never both). -/
def initCommitOp (s : S) : Except Abort Unit × S :=
  andThen (checkConflictedOp s) (fun s1 =>
  andThen (checkNotCommittedOp s1) (fun s2 =>
    let (hasMaster, s3) := checkRemoteMasterOp s2
    if hasMaster then pullRemoteRepoOp "master" true s3
    else pushRemoteRepoOp "master" s3))

/-- `checkStash` of Git.js: `stash(['pop'])` when the stash list is
non-empty. -/
def checkStashOp (s : S) : Except Abort Unit × S :=
  if s.stashAll.length > 0 then (Except.ok (), emit Ev.stashPop s)
  else (Except.ok (), s)

/-- `getRemoteBranchList(type)` as a workflow step: one
`listRemote(['--refs'])` call, then the pure scan. -/
def getRemoteBranchListOp (vtype : Option String) (s : S) : List String × S :=
  (getRemoteBranchList vtype s.remoteRefs, emit Ev.lsRemote s)

/-- `getCorrectVersion(type)` of Git.js: fetch the remote branch list (the
result is never used) and set `this.branch` to
`` `${type || VERSION_DEVELOP}/${this.version}` ``. -/
def getCorrectVersionOp (vtype : Option String) (s : S) : Except Abort Unit × S :=
  let (_, s1) := getRemoteBranchListOp vtype s
  (Except.ok (), { s1 with branch := some (correctBranch vtype s1.version) })

/-- `checkoutBranch` of Git.js: `checkout` when the branch exists locally,
else `checkoutLocalBranch`. -/
def checkoutBranchOp (s : S) : Except Abort Unit × S :=
  let b := s.branch.getD ""
  if s.localBranches.contains b then (Except.ok (), emit (Ev.checkoutEv b) s)
  else (Except.ok (), emit (Ev.checkoutLocalEv b) s)

/-- `pullRemoteMasterAndBranch` of Git.js: pull `master`, conflict check,
scan the remote branch list (no channel argument, hence the dev pattern),
and when the current version appears in it, pull the current branch and
check conflicts again. -/
def pullRemoteMasterAndBranchOp (s : S) : Except Abort Unit × S :=
  andThen (pullRemoteRepoOp "master" false s) (fun s1 =>
  andThen (checkConflictedOp s1) (fun s2 =>
    let (lst, s3) := getRemoteBranchListOp none s2
    if lst.contains s3.version then
      andThen (pullRemoteRepoOp (s3.branch.getD "") false s3) (fun s4 =>
        checkConflictedOp s4)
    else (Except.ok (), s3)))

/-- The two hosting platform variants instantiated by `createGitServer`. -/
inductive GitServerType
  | github
  | gitee
deriving DecidableEq

/-- `createGitServer(gitServer)` of Git.js: `github`/`gitee` give the
matching client, anything else `null`. -/
def createGitServer (s : String) : Option GitServerType :=
  if s = GITHUB then some GitServerType.github
  else if s = GITEE then some GitServerType.gitee
  else none

/-- Modelled from the spec: the `readFile`/`writeFile` cache primitives of
`../file` (not under src/) are, per §4.1, `readEntry(name) → value|absent`
and unconditional `writeEntry(name, value)`; the four cached categories
read by `checkGitServer`/`checkGitToken`/`checkGitOwner` are held as one
optional value each. -/
structure CacheState where
  server : Option String
  token : Option String
  owner : Option String
  login : Option String
deriving DecidableEq

/-- JavaScript truthiness of a read cache entry: absent and empty string
are falsy. -/
def truthy : Option String → Bool
  | none => false
  | some s => s ≠ ""

/-- Flags of the `Git` constructor controlling forced refreshes. -/
structure Flags where
  refreshServer : Bool
  refreshToken : Bool
  refreshOwner : Bool
deriving DecidableEq

/-- The context fields resolved by the cached steps of `prepare`. -/
structure Ctx where
  gitServer : Option GitServerType
  token : String
  owner : String
  login : String
deriving DecidableEq

/-- `checkGitServer` of Git.js: prompt (consuming one response) iff the
cached value is falsy or a refresh is forced, persisting the prompted
choice; returns the instantiated server, the cache, the remaining
responses and the number of prompts issued. -/
def checkGitServerC (refreshServer : Bool) (cache : CacheState)
    (ps : List String) : Option GitServerType × CacheState × List String × Nat :=
  if truthy cache.server && !refreshServer then
    (createGitServer (cache.server.getD ""), cache, ps, 0)
  else
    let v := ps.headD ""
    (createGitServer v, { cache with server := some v }, ps.tail, 1)

/-- `checkGitToken` of Git.js: prompt iff the cached token is falsy or a
refresh is forced, persisting the answer. -/
def checkGitTokenC (refreshToken : Bool) (cache : CacheState)
    (ps : List String) : String × CacheState × List String × Nat :=
  if truthy cache.token && !refreshToken then
    (cache.token.getD "", cache, ps, 0)
  else
    let v := ps.headD ""
    (v, { cache with token := some v }, ps.tail, 1)

/-- `checkGitOwner` of Git.js: prompt iff the cached owner or login is
falsy or a refresh is forced; choosing the personal kind takes the login
from the resolved user without a second prompt, the organization kind
prompts again for the organization login; both values are persisted. -/
def checkGitOwnerC (refreshOwner : Bool) (userLogin : String)
    (orgs : List String) (cache : CacheState) (ps : List String) :
    String × String × CacheState × List String × Nat :=
  if truthy cache.owner && truthy cache.login && !refreshOwner then
    (cache.owner.getD "", cache.login.getD "", cache, ps, 0)
  else
    let ow := if orgs.length > 0 then ps.headD "" else REPO_OWNER_USER
    if ow = REPO_OWNER_USER then
      (ow, userLogin,
       { cache with
           owner := some ow
           login := some userLogin }, ps.tail, 1)
    else
      let lg := ps.tail.headD ""
      (ow, lg,
       { cache with
           owner := some ow
           login := some lg }, ps.tail.tail, 2)

/-- The cached resolution steps of `prepare` in order
(`checkGitServer`, `checkGitToken`, `checkGitOwner`); `userLogin` and
`orgs` stand for the identity fetched in between by `checkUserAndOrgs`.
Returns the resolved context, the final cache, the unconsumed prompt
responses and the total number of prompts. -/
def resolveContext (fl : Flags) (userLogin : String) (orgs : List String)
    (cache : CacheState) (ps : List String) :
    Ctx × CacheState × List String × Nat :=
  let (srv, c1, p1, n1) := checkGitServerC fl.refreshServer cache ps
  let (tok, c2, p2, n2) := checkGitTokenC fl.refreshToken c1 p1
  let (ow, lg, c3, p3, n3) := checkGitOwnerC fl.refreshOwner userLogin orgs c2 p2
  (⟨srv, tok, ow, lg⟩, c3, p3, n1 + n2 + n3)

/-- `commit` of Git.js: resolve version/branch (no channel argument), pop
any stash, conflict check, commit pending changes, checkout the resolved
branch, merge master and possibly the remote branch, push the branch. -/
def commitOp (s : S) : Except Abort Unit × S :=
  andThen (getCorrectVersionOp none s) (fun s1 =>
  andThen (checkStashOp s1) (fun s2 =>
  andThen (checkConflictedOp s2) (fun s3 =>
  andThen (checkNotCommittedOp s3) (fun s4 =>
  andThen (checkoutBranchOp s4) (fun s5 =>
  andThen (pullRemoteMasterAndBranchOp s5) (fun s6 =>
  pushRemoteRepoOp (s6.branch.getD "") s6))))))

/-- A minimal workflow state used to build concrete scenarios. -/
def baseS : S := ⟨"1.0.0", none, [], [], [], "", [], [], [], []⟩

/-- A status with one modified file. -/
def stDirtyEx : GitStatus := { cleanStatus with modified := ["a.js"] }

/-- Scenario: a pull of `dev/1.0.0` rejected because the remote branch is
absent. -/
def pullExC1 : S :=
  { baseS with pulls := [PullRes.err (missingRefSig "dev/1.0.0")] }

/-- Scenario: a pull rejected with an unclassified message. -/
def pullExC9 : S :=
  { baseS with pulls := [PullRes.err "fatal: unable to access repository"] }

/-- Scenario: a pull rejected with the public-key signature. -/
def pullExSsh : S :=
  { baseS with pulls := [PullRes.err "git: Permission denied (publickey)."] }

/-- The spec's remote-ref example: one valid dev version, one malformed. -/
def exC6 : String := "sha1 refs/heads/dev/1.0.0\nsha2 refs/heads/dev/x.y.z"

/-- Two matching dev refs with valid versions; the second line is shorter
than the first match end, so the stateful regex skips it. -/
def exSkip : String := "aaaa refs/heads/dev/1.0.0\nbb refs/heads/dev/2.0.0"

/-- Scenario for `initCommit`: clean tree, remote `master` present. -/
def sInitEx : S :=
  ⟨"1.0.0", none, [cleanStatus, cleanStatus], [], [], "x refs/heads/master",
   [], [PullRes.ok], [], []⟩

/-- Scenario for `commit`: dirty tree, a stash entry, local and remote
`dev/1.0.0` present, first commit-message response empty. -/
def sCommitEx : S :=
  ⟨"1.0.0", none, [cleanStatus, stDirtyEx, cleanStatus, cleanStatus], ["st0"],
   ["dev/1.0.0"], "sha refs/heads/dev/1.0.0", ["", "msg"],
   [PullRes.ok, PullRes.ok], [PullRes.ok], []⟩

deriving instance DecidableEq for Except

/-- Every result of `askLoop` is a non-empty message preceded in the stream
by exactly the empty responses it re-prompted over. -/
theorem askLoop_sound (ps : List String) (m : String) (rest : List String)
    (n : Nat) (h : askLoop ps = some (m, rest, n)) :
    m ≠ "" ∧ 1 ≤ n ∧ ps.take (n - 1) = List.replicate (n - 1) "" ∧
      ps.drop (n - 1) = m :: rest := by
  induction ps generalizing m rest n with
  | nil => simp [askLoop] at h
  | cons p ps ih =>
    by_cases hp : p = ""
    · subst hp
      simp only [askLoop, if_pos] at h
      cases hask : askLoop ps with
      | none => rw [hask] at h; cases h
      | some r =>
        obtain ⟨m', rest', n'⟩ := r
        rw [hask] at h
        cases h
        obtain ⟨h1, h2, h3, h4⟩ := ih m rest n' hask
        have hn' : n' + 1 - 1 = (n' - 1) + 1 := by omega
        refine ⟨h1, by omega, ?_, ?_⟩
        · rw [hn', List.take_succ_cons, h3]
          have hr : n' = (n' - 1) + 1 := by omega
          rw [hr, List.replicate_succ]
        · rw [hn', List.drop_succ_cons, h4]
    · simp only [askLoop, if_neg hp] at h
      cases h
      exact ⟨hp, le_refl 1, by simp, by simp⟩

/-- Every version kept by `scanLines` passed the `semver.valid` filter. -/
theorem scanLines_sound (lit : List Char) (lines : List (List Char))
    (li : Nat) (v : String) (h : v ∈ scanLines lit lines li) :
    semverValid v = true := by
  induction lines generalizing li with
  | nil => simp [scanLines] at h
  | cons line rest ih =>
    rw [scanLines] at h
    cases hx : regExec lit li line with
    | none => rw [hx] at h; exact ih _ h
    | some r =>
      obtain ⟨cap, e⟩ := r
      rw [hx] at h
      simp only at h
      by_cases hv : semverValid (String.mk cap) = true
      · rw [if_pos hv] at h
        rcases List.mem_cons.mp h with h1 | h2
        · subst h1; exact hv
        · exact ih _ h2
      · rw [if_neg hv] at h
        exact ih _ h

/-- C5 (confirmed): `checkConflicted` throws the unresolved-conflict error
exactly when the status's conflicted list is non-empty, and succeeds
otherwise — stated as a full characterization of its result on any
pending status. -/
theorem checkConflicted_raises_iff (s : S) :
    (checkConflictedOp s).1 =
      (if (s.statuses.headD cleanStatus).conflicted.length > 0
       then Except.error (Abort.thrown conflictMsg)
       else Except.ok ()) := by
  unfold checkConflictedOp statusOp checkConflictedPure
  by_cases h : (s.statuses.headD cleanStatus).conflicted.length > 0 <;>
    simp only [List.headD_eq_head?_getD] at h <;> simp [h]

/-- C3 counterexample: the invalid version string `1.2` (rejected by
`semver.valid`) is accepted verbatim into the resolved branch name
`dev/1.2`, contradicting "an invalid version is never accepted". -/
theorem branch_accepts_invalid_version :
    semverValid "1.2" = false ∧
    correctBranch none "1.2" = "dev/1.2" ∧
    ((getCorrectVersionOp none { baseS with version := "1.2" }).2).branch =
      some "dev/1.2" := by
  refine ⟨by decide, rfl, rfl⟩

/-- C3 (amended): branch construction interpolates the literal version —
channel `release` + `1.2.3` gives `release/1.2.3` and an omitted channel +
`0.1.0` gives `dev/0.1.0` as claimed, but `getCorrectVersion` performs no
semantic-version validation, so every version string (invalid ones
included) is accepted into the branch name. -/
theorem branch_construction (vtype : Option String) (s : S) :
    ((getCorrectVersionOp vtype s).2).branch =
      some (jsOrDefault vtype VERSION_DEVELOP ++ "/" ++ s.version) ∧
    ((getCorrectVersionOp (some VERSION_RELEASE)
        { baseS with version := "1.2.3" }).2).branch = some "release/1.2.3" ∧
    ((getCorrectVersionOp none { baseS with version := "0.1.0" }).2).branch =
      some "dev/0.1.0" := by
  refine ⟨rfl, rfl, rfl⟩

/-- C9 (confirmed, implicit): whenever a pull fails with a message lacking
the public-key signature — the missing-remote-ref case included — the
handler falls through to `process.exit(0)`, terminating the process with a
success status. -/
theorem pull_nonssh_exits_zero (b : String) (u : Bool) (s : S) (m : String)
    (rest : List PullRes) (hp : s.pulls = PullRes.err m :: rest)
    (hssh : jsIncludes m sshSig = false) :
    (pullRemoteRepoOp b u s).1 = Except.error (Abort.exited 0) := by
  by_cases hmr : jsIncludes m (missingRefSig b) = true <;>
    simp [pullRemoteRepoOp, hp, hssh, hmr, emit]

/-- C9 witness: the missing-remote-ref failure on branch `dev/1.0.0` ends
in `process.exit(0)`. -/
theorem pull_nonssh_exits_zero_witness :
    (pullRemoteRepoOp "dev/1.0.0" false pullExC1).1 =
      Except.error (Abort.exited 0) :=
  pull_nonssh_exits_zero "dev/1.0.0" false pullExC1
    (missingRefSig "dev/1.0.0") [] rfl (by decide)

/-- C1 counterexample: a pull of `dev/1.0.0` failing with the
missing-remote-ref message does not let the workflow proceed — the step
ends in `process.exit(0)` instead of returning successfully. -/
theorem pull_missing_ref_not_nonfatal :
    (pullRemoteRepoOp "dev/1.0.0" false pullExC1).1 =
      Except.error (Abort.exited 0) ∧
    (pullRemoteRepoOp "dev/1.0.0" false pullExC1).1 ≠ Except.ok () := by
  refine ⟨by decide, by decide⟩

/-- C1 (amended): a failed pull is classified by message content into three
outcomes — the public-key signature throws the fatal SSH-setup error; the
missing-remote-ref signature logs an informational notice and then
terminates via `process.exit(0)` (the workflow does not proceed); any
other message is logged as an error and likewise terminates via
`process.exit(0)`. -/
theorem pull_classification (b : String) (u : Bool) (s : S) (m : String)
    (rest : List PullRes) (hp : s.pulls = PullRes.err m :: rest) :
    (jsIncludes m sshSig = true →
       pullRemoteRepoOp b u s =
         (Except.error (Abort.thrown sshErrMsg),
          { s with
              pulls := rest
              events := s.events ++ [Ev.pullEv b u] })) ∧
    (jsIncludes m sshSig = false → jsIncludes m (missingRefSig b) = true →
       pullRemoteRepoOp b u s =
         (Except.error (Abort.exited 0),
          emit (Ev.noticeEv ("获取远程 " ++ b ++ " 分支失败"))
            { s with
                pulls := rest
                events := s.events ++ [Ev.pullEv b u] })) ∧
    (jsIncludes m sshSig = false → jsIncludes m (missingRefSig b) = false →
       pullRemoteRepoOp b u s =
         (Except.error (Abort.exited 0),
          emit (Ev.errorEv m)
            { s with
                pulls := rest
                events := s.events ++ [Ev.pullEv b u] })) := by
  refine ⟨fun h1 => ?_, fun h1 h2 => ?_, fun h1 h2 => ?_⟩ <;>
    simp [pullRemoteRepoOp, hp, h1, emit] <;> simp [h2]

/-- C1 witness: the public-key failure scenario throws the SSH-setup
error. -/
theorem pull_classification_witness :
    pullRemoteRepoOp "master" false pullExSsh =
      (Except.error (Abort.thrown sshErrMsg),
       { pullExSsh with
           pulls := []
           events := [Ev.pullEv "master" false] }) :=
  (pull_classification "master" false pullExSsh
      "git: Permission denied (publickey)." [] rfl).1 (by decide)

/-- C2 counterexample: with a clean tree and a remote `master` present,
`initCommit` issues the allow-unrelated-histories pull of `master` and
never pushes — the claimed pull-then-push sequence does not happen (the
pull and the push sit in an `if`/`else`). -/
theorem initCommit_no_push_when_remote_master :
    (initCommitOp sInitEx).2.events =
      [Ev.statusCall, Ev.statusCall, Ev.lsRemote, Ev.pullEv "master" true] ∧
    Ev.pushEv "master" ∉ (initCommitOp sInitEx).2.events := by
  refine ⟨by decide, by decide⟩

/-- C2 (amended): after the conflict check and the commit of pending
changes, `initCommit` pulls `master` with the allow-unrelated-histories
option when the remote `master` branch already has history, and otherwise
pushes `master` — one of the two, never pull followed by push. -/
theorem initCommit_pull_xor_push (s : S) (st1 st2 : GitStatus)
    (rest : List GitStatus) (hs : s.statuses = st1 :: st2 :: rest)
    (h1 : st1.conflicted = []) (h2 : dirtyB st2 = false)
    (hp : s.pulls.headD PullRes.ok = PullRes.ok) :
    (initCommitOp s).2.events =
      s.events ++ [Ev.statusCall, Ev.statusCall, Ev.lsRemote] ++
      (if jsIncludes s.remoteRefs masterRef then [Ev.pullEv "master" true]
       else [Ev.pushEv "master"]) := by
  unfold initCommitOp andThen checkConflictedOp checkNotCommittedOp statusOp
    checkConflictedPure checkRemoteMasterOp emit pullRemoteRepoOp
    pushRemoteRepoOp
  rw [hs]
  simp only [List.headD_eq_head?_getD] at hp
  by_cases hm : jsIncludes s.remoteRefs masterRef <;>
    simp [h1, h2, hp, hm]
  cases hq : s.pushes.head?.getD PullRes.ok <;> simp [hq]

/-- C2 witness: the clean-tree scenario with no remote `master` ends in the
lone push. -/
theorem initCommit_pull_xor_push_witness :
    (initCommitOp { sInitEx with remoteRefs := "" }).2.events =
      [Ev.statusCall, Ev.statusCall, Ev.lsRemote, Ev.pushEv "master"] := by
  have h := initCommit_pull_xor_push { sInitEx with remoteRefs := "" }
    cleanStatus cleanStatus [] rfl rfl rfl rfl
  simpa using h

/-- C6 counterexample: in a ref list whose two lines both carry well-formed
dev versions, only `1.0.0` is extracted — `2.0.0` appears after the
dev-heads pattern (a fresh exec of the second line captures it and
`semver.valid` accepts it) yet is missing from the result, because the
shared global regex keeps its `lastIndex` from the first line.  The
extracted set is therefore not exactly the well-formed versions of the
matching refs. -/
theorem scan_misses_valid_version :
    getRemoteBranchList none exSkip = ["1.0.0"] ∧
    regExec devCore 0 "bb refs/heads/dev/2.0.0".toList =
      some ("2.0.0".toList, 23) ∧
    semverValid "2.0.0" = true ∧
    "2.0.0" ∉ getRemoteBranchList none exSkip := by
  refine ⟨by decide, by decide, by decide, by decide⟩

/-- C6 (amended): remote-ref scanning extracts only well-formed semantic
versions — every token kept by `getRemoteBranchList` passed `semver.valid`,
and on the spec's example list (one valid dev ref, one malformed) exactly
`1.0.0` is extracted — but it may omit well-formed versions of matching
refs on later lines, because the regex's `lastIndex` carries over between
lines. -/
theorem scan_extracts_only_valid (vtype : Option String) (r v : String)
    (h : v ∈ getRemoteBranchList vtype r) :
    semverValid v = true ∧
    getRemoteBranchList none exC6 = ["1.0.0"] := by
  refine ⟨?_, by decide⟩
  unfold getRemoteBranchList at h
  exact scanLines_sound _ _ _ _ h

/-- C6 witness: the token extracted from the example list is a valid
semantic version. -/
theorem scan_extracts_only_valid_witness :
    semverValid "1.0.0" = true ∧
    getRemoteBranchList none exC6 = ["1.0.0"] :=
  scan_extracts_only_valid none exC6 "1.0.0" (by decide)


/-- C4 (confirmed): `checkNotCommitted` is a no-op (nothing staged, no
prompt, no commit) when all five change lists of the status are empty;
otherwise it stages every path of the five lists, re-prompts until a
non-empty commit message arrives (the preceding responses were all empty),
and commits exactly once with that message. -/
theorem checkNotCommitted_stage_and_commit (s : S) (st : GitStatus)
    (hst : st = s.statuses.headD cleanStatus) :
    (dirtyB st = false →
      checkNotCommittedOp s =
        (Except.ok (),
         { s with
             statuses := s.statuses.tail
             events := s.events ++ [Ev.statusCall] })) ∧
    (∀ m prest n, dirtyB st = true → askLoop s.prompts = some (m, prest, n) →
      m ≠ "" ∧ s.prompts.take (n - 1) = List.replicate (n - 1) "" ∧
      checkNotCommittedOp s =
        (Except.ok (),
         { s with
             statuses := s.statuses.tail
             prompts := prest
             events := s.events ++
               [Ev.statusCall, Ev.addPaths st.not_added, Ev.addPaths st.created,
                Ev.addPaths st.deleted, Ev.addPaths st.modified,
                Ev.addPaths st.renamed] ++
               List.replicate n Ev.promptEv ++ [Ev.commitEv m] })) := by
  subst hst
  constructor
  · intro hd
    unfold checkNotCommittedOp statusOp
    simp only [List.headD_eq_head?_getD] at hd
    simp [hd]
  · intro m prest n hd hask
    have hsound := askLoop_sound s.prompts m prest n hask
    refine ⟨hsound.1, hsound.2.2.1, ?_⟩
    unfold checkNotCommittedOp statusOp
    simp only [List.headD_eq_head?_getD] at hd
    simp [hd, hask]

/-- C4 witness: with one modified file and responses `["", "fix"]`, the
working tree is staged, the empty response is re-prompted over and a
single commit with message `fix` is issued. -/
theorem checkNotCommitted_stage_and_commit_witness :
    checkNotCommittedOp { baseS with statuses := [stDirtyEx], prompts := ["", "fix"] } =
      (Except.ok (),
       { baseS with
           statuses := []
           prompts := []
           events := [Ev.statusCall, Ev.addPaths [], Ev.addPaths [],
             Ev.addPaths [], Ev.addPaths ["a.js"], Ev.addPaths [],
             Ev.promptEv, Ev.promptEv, Ev.commitEv "fix"] }) := by
  have h := (checkNotCommitted_stage_and_commit
      { baseS with statuses := [stDirtyEx], prompts := ["", "fix"] }
      stDirtyEx rfl).2 "fix" [] 2 (by decide) rfl
  simpa using h.2.2

/-- `andThen` keeps the `branch` field of its result when the second step
does. -/
theorem andThen_branch (r : Except Abort Unit × S) (f : S → Except Abort Unit × S)
    (hf : ∀ s, ((f s).2).branch = s.branch) :
    ((andThen r f).2).branch = (r.2).branch := by
  obtain ⟨e, s⟩ := r
  cases e <;> simp [andThen, hf]

/-- `checkStash` never touches the resolved branch name. -/
theorem branch_checkStashOp (s : S) : ((checkStashOp s).2).branch = s.branch := by
  simp only [checkStashOp, emit]
  split <;> rfl

/-- `checkConflicted` never touches the resolved branch name. -/
theorem branch_checkConflictedOp (s : S) :
    ((checkConflictedOp s).2).branch = s.branch := by
  simp only [checkConflictedOp, statusOp, checkConflictedPure]
  split <;> rfl

/-- `checkNotCommitted` never touches the resolved branch name. -/
theorem branch_checkNotCommittedOp (s : S) :
    ((checkNotCommittedOp s).2).branch = s.branch := by
  simp only [checkNotCommittedOp, statusOp]
  split
  · split <;> rfl
  · rfl

/-- `pullRemoteRepo` never touches the resolved branch name. -/
theorem branch_pullRemoteRepoOp (b : String) (u : Bool) (s : S) :
    ((pullRemoteRepoOp b u s).2).branch = s.branch := by
  simp only [pullRemoteRepoOp, emit]
  split
  · rfl
  · split
    · rfl
    · split <;> rfl

/-- `pushRemoteRepo` never touches the resolved branch name. -/
theorem branch_pushRemoteRepoOp (b : String) (s : S) :
    ((pushRemoteRepoOp b s).2).branch = s.branch := by
  simp only [pushRemoteRepoOp]
  split <;> rfl

/-- `checkoutBranch` never touches the resolved branch name. -/
theorem branch_checkoutBranchOp (s : S) :
    ((checkoutBranchOp s).2).branch = s.branch := by
  simp only [checkoutBranchOp, emit]
  split <;> rfl

/-- `pullRemoteMasterAndBranch` never touches the resolved branch name. -/
theorem branch_pullRemoteMasterAndBranchOp (s : S) :
    ((pullRemoteMasterAndBranchOp s).2).branch = s.branch := by
  unfold pullRemoteMasterAndBranchOp
  rw [andThen_branch]
  · exact branch_pullRemoteRepoOp "master" false s
  · intro s1
    rw [andThen_branch]
    · exact branch_checkConflictedOp s1
    · intro s2
      simp only [getRemoteBranchListOp, emit]
      split
      · rw [andThen_branch]
        · exact branch_pullRemoteRepoOp _ false _
        · intro s4
          exact branch_checkConflictedOp s4
      · rfl

/-- C10 (confirmed): `commit` resolves the working branch on the default
`dev` channel — it calls `getCorrectVersion` with no channel argument, so
for every state the resolved branch is exactly `dev/{version}` (the
`release` channel is never selected), and the channel-less remote scans it
performs use the dev-heads pattern, while only an explicit `release`
argument selects the release-tags pattern. -/
theorem commit_resolves_dev_branch :
    (∀ s : S, ((commitOp s).2).branch =
       some (VERSION_DEVELOP ++ "/" ++ s.version)) ∧
    (∀ r : String, getRemoteBranchList none r =
       scanLines devCore (splitNl r.toList) 0) ∧
    (∀ r : String, getRemoteBranchList (some VERSION_RELEASE) r =
       scanLines relCore (splitNl r.toList) 0) := by
  refine ⟨fun s => ?_, fun r => rfl, fun r => ?_⟩
  · unfold commitOp
    rw [andThen_branch]
    · rfl
    · intro s1
      rw [andThen_branch]
      · exact branch_checkStashOp s1
      · intro s2
        rw [andThen_branch]
        · exact branch_checkConflictedOp s2
        · intro s3
          rw [andThen_branch]
          · exact branch_checkNotCommittedOp s3
          · intro s4
            rw [andThen_branch]
            · exact branch_checkoutBranchOp s4
            · intro s5
              rw [andThen_branch]
              · exact branch_pullRemoteMasterAndBranchOp s5
              · intro s6
                exact branch_pushRemoteRepoOp _ s6
  · simp [getRemoteBranchList]

/-- `checkGitServer` always writes back what it resolves: its result is
the server built from the cache entry it leaves behind, and it touches no
other cache entry. -/
theorem serverC_spec (f : Bool) (c : CacheState) (ps : List String) :
    (checkGitServerC f c ps).1 =
      createGitServer ((checkGitServerC f c ps).2.1.server.getD "") ∧
    (checkGitServerC f c ps).2.1.token = c.token ∧
    (checkGitServerC f c ps).2.1.owner = c.owner ∧
    (checkGitServerC f c ps).2.1.login = c.login := by
  unfold checkGitServerC
  split_ifs <;> simp

/-- `checkGitToken` always writes back what it resolves and touches no
other cache entry. -/
theorem tokenC_spec (f : Bool) (c : CacheState) (ps : List String) :
    (checkGitTokenC f c ps).1 = (checkGitTokenC f c ps).2.1.token.getD "" ∧
    (checkGitTokenC f c ps).2.1.server = c.server ∧
    (checkGitTokenC f c ps).2.1.owner = c.owner ∧
    (checkGitTokenC f c ps).2.1.login = c.login := by
  unfold checkGitTokenC
  split_ifs <;> simp

/-- `checkGitOwner` always writes back the owner/login pair it resolves
and touches no other cache entry. -/
theorem ownerC_spec (f : Bool) (u : String) (orgs : List String)
    (c : CacheState) (ps : List String) :
    (checkGitOwnerC f u orgs c ps).1 =
      (checkGitOwnerC f u orgs c ps).2.2.1.owner.getD "" ∧
    (checkGitOwnerC f u orgs c ps).2.1 =
      (checkGitOwnerC f u orgs c ps).2.2.1.login.getD "" ∧
    (checkGitOwnerC f u orgs c ps).2.2.1.server = c.server ∧
    (checkGitOwnerC f u orgs c ps).2.2.1.token = c.token := by
  unfold checkGitOwnerC
  by_cases hhit : (truthy c.owner && truthy c.login && !f) = true
  · simp [hhit]
  · by_cases ho : orgs.length > 0
    · by_cases hu : ps.head?.getD "" = REPO_OWNER_USER <;>
        simp [hhit, ho, hu, List.headD_eq_head?_getD]
    · simp [hhit, ho]

/-- With no refresh flags and every category cached truthy, the cached
resolution steps prompt zero times, leave the cache untouched and return
the context read from the cache. -/
theorem resolveContext_cached (c : CacheState) (ps2 : List String)
    (u : String) (orgs : List String)
    (h1 : truthy c.server = true) (h2 : truthy c.token = true)
    (h3 : truthy c.owner = true) (h4 : truthy c.login = true) :
    resolveContext ⟨false, false, false⟩ u orgs c ps2 =
      (⟨createGitServer (c.server.getD ""), c.token.getD "",
        c.owner.getD "", c.login.getD ""⟩, c, ps2, 0) := by
  unfold resolveContext checkGitServerC checkGitTokenC checkGitOwnerC
  simp [h1, h2, h3, h4]

/-- The context returned by the resolution steps always coincides with
what the final cache holds. -/
theorem resolveContext_writeback (fl : Flags) (u : String)
    (orgs : List String) (cache : CacheState) (ps : List String) :
    (resolveContext fl u orgs cache ps).1 =
      ⟨createGitServer ((resolveContext fl u orgs cache ps).2.1.server.getD ""),
       (resolveContext fl u orgs cache ps).2.1.token.getD "",
       (resolveContext fl u orgs cache ps).2.1.owner.getD "",
       (resolveContext fl u orgs cache ps).2.1.login.getD ""⟩ := by
  have hs := serverC_spec fl.refreshServer cache ps
  unfold resolveContext
  rcases hS : checkGitServerC fl.refreshServer cache ps with ⟨srv, c1, p1, n1⟩
  have ht := tokenC_spec fl.refreshToken c1 p1
  rcases hT : checkGitTokenC fl.refreshToken c1 p1 with ⟨tok, c2, p2, n2⟩
  have ho := ownerC_spec fl.refreshOwner u orgs c2 p2
  rcases hO : checkGitOwnerC fl.refreshOwner u orgs c2 p2 with ⟨ow, lg, c3, p3, n3⟩
  rw [hS] at hs
  rw [hT] at ht
  rw [hO] at ho
  simp only [hS, hT, hO]
  obtain ⟨hs1, hs2, hs3, hs4⟩ := hs
  obtain ⟨ht1, ht2, ht3, ht4⟩ := ht
  obtain ⟨ho1, ho2, ho3, ho4⟩ := ho
  simp only at hs1 ht1 ho1 ho2 ho3 ho4 ht2 ht3 ht4 hs2 hs3 hs4
  simp only [Ctx.mk.injEq]
  exact ⟨by rw [hs1, ho3, ht2], by rw [ht1, ho4], by rw [ho1], by rw [ho2]⟩

/-- C7 (confirmed): each refresh flag forces a prompt for its category
regardless of cache contents (`checkGitServer`/`checkGitToken` prompt
exactly once, `checkGitOwner` at least once), and a second run of the
cached resolution steps of `prepare` with no refresh flags and every
category cached performs zero prompts and resolves the same context
(server, token, owner, login) as the first run. -/
theorem prepare_cache_refresh_and_idempotent :
    (∀ (cache : CacheState) (ps : List String),
       (checkGitServerC true cache ps).2.2.2 = 1) ∧
    (∀ (cache : CacheState) (ps : List String),
       (checkGitTokenC true cache ps).2.2.2 = 1) ∧
    (∀ (u : String) (orgs : List String) (cache : CacheState)
       (ps : List String), 1 ≤ (checkGitOwnerC true u orgs cache ps).2.2.2.2) ∧
    (∀ (fl : Flags) (u : String) (orgs : List String) (cache : CacheState)
       (ps ps2 : List String) (ctx1 : Ctx) (c1 : CacheState)
       (p1 : List String) (n1 : Nat),
       resolveContext fl u orgs cache ps = (ctx1, c1, p1, n1) →
       truthy c1.server = true → truthy c1.token = true →
       truthy c1.owner = true → truthy c1.login = true →
       resolveContext ⟨false, false, false⟩ u orgs c1 ps2 = (ctx1, c1, ps2, 0)) := by
  refine ⟨fun cache ps => ?_, fun cache ps => ?_, fun u orgs cache ps => ?_,
    fun fl u orgs cache ps ps2 ctx1 c1 p1 n1 h h1 h2 h3 h4 => ?_⟩
  · simp [checkGitServerC]
  · simp [checkGitTokenC]
  · unfold checkGitOwnerC
    simp only [Bool.not_true, Bool.and_false, Bool.false_eq_true, if_false]
    split <;> split <;> simp
  · have hw := resolveContext_writeback fl u orgs cache ps
    rw [h] at hw
    rw [resolveContext_cached c1 ps2 u orgs h1 h2 h3 h4, ← hw]

/-- C7 witness: a cache holding `github`/`tok`/`user`/`me` re-resolves
with zero prompts to the identical context. -/
theorem prepare_cache_witness :
    resolveContext ⟨false, false, false⟩ "me" []
        ⟨some "github", some "tok", some "user", some "me"⟩ [] =
      (⟨some GitServerType.github, "tok", "user", "me"⟩,
       ⟨some "github", some "tok", some "user", some "me"⟩, [], 0) :=
  prepare_cache_refresh_and_idempotent.2.2.2 ⟨false, false, false⟩ "me" []
    ⟨none, none, none, none⟩ ["github", "tok"] []
    ⟨some GitServerType.github, "tok", "user", "me"⟩
    ⟨some "github", some "tok", some "user", some "me"⟩ [] 3
    (by decide) (by decide) (by decide) (by decide) (by decide)


/-- C8 (confirmed): `commit` executes its steps in the fixed order —
resolve version/branch (one remote scan), restore any stash, check for
conflicts, stage and commit pending changes, checkout/create the resolved
branch, pull `master` and check conflicts, then — only if a remote branch
matching the current version exists — pull that branch and check
conflicts, and finally push the current branch. -/
theorem commit_order (s : S) (st1 st2 st3 st4 : GitStatus)
    (srest : List GitStatus) (m : String) (prest : List String) (n : Nat)
    (pulls2 : List PullRes)
    (hstat : s.statuses = st1 :: st2 :: st3 :: st4 :: srest)
    (hpull : s.pulls = PullRes.ok :: PullRes.ok :: pulls2)
    (h1 : st1.conflicted = []) (h3 : st3.conflicted = [])
    (h4 : st4.conflicted = [])
    (hd : dirtyB st2 = true)
    (hask : askLoop s.prompts = some (m, prest, n)) :
    (commitOp s).2.events =
      s.events ++ [Ev.lsRemote] ++
      (if s.stashAll.length > 0 then [Ev.stashPop] else []) ++
      [Ev.statusCall] ++
      [Ev.statusCall, Ev.addPaths st2.not_added, Ev.addPaths st2.created,
       Ev.addPaths st2.deleted, Ev.addPaths st2.modified,
       Ev.addPaths st2.renamed] ++
      List.replicate n Ev.promptEv ++ [Ev.commitEv m] ++
      [(if s.localBranches.contains (VERSION_DEVELOP ++ "/" ++ s.version)
        then Ev.checkoutEv (VERSION_DEVELOP ++ "/" ++ s.version)
        else Ev.checkoutLocalEv (VERSION_DEVELOP ++ "/" ++ s.version))] ++
      [Ev.pullEv "master" false, Ev.statusCall, Ev.lsRemote] ++
      (if (getRemoteBranchList none s.remoteRefs).contains s.version
       then [Ev.pullEv (VERSION_DEVELOP ++ "/" ++ s.version) false,
             Ev.statusCall]
       else []) ++
      [Ev.pushEv (VERSION_DEVELOP ++ "/" ++ s.version)] := by
  unfold commitOp andThen getCorrectVersionOp getRemoteBranchListOp
    checkStashOp checkConflictedOp checkNotCommittedOp statusOp
    checkConflictedPure checkoutBranchOp pullRemoteMasterAndBranchOp
    pullRemoteRepoOp pushRemoteRepoOp emit correctBranch jsOrDefault
  by_cases hst : 0 < s.stashAll.length <;>
  by_cases hlb : (VERSION_DEVELOP ++ "/" ++ s.version) ∈ s.localBranches <;>
  by_cases hv : s.version ∈ getRemoteBranchList none s.remoteRefs <;>
    simp [andThen, getRemoteBranchListOp, checkConflictedOp, statusOp,
      checkConflictedPure, pullRemoteRepoOp, pushRemoteRepoOp, emit,
      hstat, hpull, h1, h3, h4, hd, hask, hst, hlb, hv,
      List.append_assoc]
  all_goals cases hq : s.pushes.head?.getD PullRes.ok <;>
    simp [hq, List.append_assoc]


/-- C8 witness: the dirty-tree scenario with a stash entry and a matching
remote branch produces exactly the specified event order. -/
theorem commit_order_witness :
    (commitOp sCommitEx).2.events =
      [Ev.lsRemote, Ev.stashPop, Ev.statusCall, Ev.statusCall,
       Ev.addPaths [], Ev.addPaths [], Ev.addPaths [], Ev.addPaths ["a.js"],
       Ev.addPaths [], Ev.promptEv, Ev.promptEv, Ev.commitEv "msg",
       Ev.checkoutEv "dev/1.0.0", Ev.pullEv "master" false, Ev.statusCall,
       Ev.lsRemote, Ev.pullEv "dev/1.0.0" false, Ev.statusCall,
       Ev.pushEv "dev/1.0.0"] := by
  have h := commit_order sCommitEx cleanStatus stDirtyEx cleanStatus
      cleanStatus [] "msg" [] 2 [] rfl rfl rfl rfl rfl (by decide) rfl
  rw [h]
  decide

end ImoocGit
